import Mathlib

/-!
# dudect fixture (`src/dudect/fixture.c`): measurement rounds, sample filter,
leak decision and campaign controller

The development embeds the functions of `fixture.c` as pure functions over an
explicit program state and proves properties of them.

* C `double` values are modelled by `F64`: NaN, the two infinities, or a finite
  value carried as a rational number (every finite double is a rational; the two
  signed zeros are identified). `fabs` and the ordered comparisons, which decide
  the verdict, are defined exactly on this type. Rounding arithmetic (`+ - * /`,
  `sqrt`, integer conversion) is supplied through the interface `Arith`.
* `ttest.c`/`ttest.h` (`t_ctx`, `t_init`, `t_push`, `t_compute`) and
  `constant.c` (`prepare_inputs`, `measure`, the configuration constants) are not
  part of the translated file; they enter as the interface `Ttest`, the record
  `Config` and the per-round record `RoundEnv`.
-/

namespace Dudect

/-! ## Doubles -/

/-- Values of a C `double`: NaN, minus/plus infinity, or a finite value. -/
inductive F64 where
  | nan : F64
  | ninf : F64
  | pinf : F64
  | fin (q : ℚ) : F64
deriving DecidableEq

namespace F64

/-- The C library `fabs`: NaN stays NaN, both infinities map to `+inf`. -/
def fabs : F64 → F64
  | nan => nan
  | ninf => pinf
  | pinf => pinf
  | fin q => fin |q|

/-- IEEE 754 `a < b`: false as soon as one operand is NaN. -/
def lt : F64 → F64 → Bool
  | nan, _ => false
  | _, nan => false
  | ninf, ninf => false
  | ninf, _ => true
  | _, ninf => false
  | pinf, _ => false
  | fin _, pinf => true
  | fin a, fin b => decide (a < b)

/-- IEEE 754 `a > b`. -/
def gt (a b : F64) : Bool := lt b a

/-- IEEE 754 `a <= b`: false as soon as one operand is NaN. -/
def le : F64 → F64 → Bool
  | nan, _ => false
  | _, nan => false
  | ninf, _ => true
  | _, pinf => true
  | pinf, _ => false
  | fin _, ninf => false
  | fin a, fin b => decide (a ≤ b)

/-- Conversion of a C `int` constant to `double` (exact). -/
def ofInt (z : Int) : F64 := fin (z : ℚ)

end F64

/-- The floating-point operations `fixture.c` takes from the C language and
`libm`; they round, so they are an interface rather than definitions. -/
structure Arith where
  add : F64 → F64 → F64
  sub : F64 → F64 → F64
  mul : F64 → F64 → F64
  div : F64 → F64 → F64
  sqrt : F64 → F64
  /-- Integer to `double` conversion. -/
  ofInt : Int → F64

/-! ## Test context and the `ttest` interface -/

/-- Modelled from the spec: `ttest.h` is not among the sources. The Test Context
holds, for each of the classes 0 and 1, a running mean, the Welford accumulator
M2 and a sample count (`t->mean[c]`, `t->m2[c]`, `t->n[c]`); the count is a
non-negative integer. -/
structure t_ctx where
  mean0 : F64
  mean1 : F64
  m2_0 : F64
  m2_1 : F64
  n0 : Nat
  n1 : Nat
deriving DecidableEq

/-- The functions of `ttest.c` called by `fixture.c`. `t_push ctx x c` receives
the `int64_t` sample `x` (before its implicit conversion to `double`) and the
class label `c`; `t_compute` only reads the context. -/
structure Ttest where
  t_init : t_ctx → t_ctx
  t_push : t_ctx → Int → Nat → t_ctx
  t_compute : t_ctx → F64

/-- The external configuration variables of `fixture.c`: `int enough_measurements`,
`const int drop_size`, `const size_t chunk_size`,
`const size_t number_measurements`. -/
structure Config where
  enough_measurements : Int
  drop_size : Int
  chunk_size : Nat
  number_measurements : Nat

/-! ## Machine integers and loops -/

/-- Two's complement wrap of a mathematical integer into `int64_t`. -/
def wrap64 (z : Int) : Int := (z + 2 ^ 63) % 2 ^ 64 - 2 ^ 63

/-- Conversion of an integer to `size_t` (64 bit): reduction modulo `2^64`. -/
def to_size_t (z : Int) : Nat := (z % 2 ^ 64).toNat

/-- The loop `for (i = 0; i < n; i++) s = body(i, s);` with a loop-invariant bound `n`:
`body 0` runs first, `body (n-1)` last. -/
def forLoop {σ : Type} (body : Nat → σ → σ) : Nat → σ → σ
  | 0, s => s
  | n + 1, s => body n (forLoop body n s)

/-! ## Round buffers, `differentiate`, `update_statistics` -/

/-- The five working buffers of one round (`doit`). -/
structure Buffers where
  before_ticks : List Int
  after_ticks : List Int
  exec_times : List Int
  classes : List Nat
  input_data : List Nat

/-- Body of the loop of `differentiate`:
`exec_times[i] = after_ticks[i] - before_ticks[i]` in `int64_t` arithmetic. -/
def differentiate_body (i : Nat) (b : Buffers) : Buffers :=
  { b with
    exec_times :=
      b.exec_times.set i (wrap64 (b.after_ticks.getD i 0 - b.before_ticks.getD i 0)) }

/-- Function `differentiate`: the body runs for `i = 0, ..., number_measurements - 1`. -/
def differentiate (N : Nat) (b : Buffers) : Buffers :=
  forLoop differentiate_body N b

/-- Function `update_statistics`: every `exec_times[i]`, `i < number_measurements`, that
is not `<= 0` is handed to `t_push` with `classes[i]`; `t` is the static test
context. -/
def update_statistics (T : Ttest) (N : Nat) (exec_times : List Int) (classes : List Nat)
    (t : t_ctx) : t_ctx :=
  forLoop
    (fun i t =>
      let difference := exec_times.getD i 0
      if difference ≤ 0 then t else T.t_push t difference (classes.getD i 0))
    N t

/-! ## Program state -/

/-- The arguments of the two diagnostic `printf` calls of `report`, in the order
of the format strings: `meas`, the optional "still to go" count, `max t`,
`max tau`, `(5/tau)^2`, `mu0`, `mu1`, `dmu`, `s0`, `s1`, `m20`, `m21`. -/
structure Diag where
  meas : F64
  still_to_go : Option F64
  max_t : F64
  max_tau : F64
  five_over_tau_sq : F64
  mu0 : F64
  mu1 : F64
  dmu : F64
  s0 : F64
  s1 : F64
  m20 : F64
  m21 : F64
deriving DecidableEq

/-- What the program writes to standard output: the "Testing ..." banner of a
campaign (tagged by its mode) and the report of a round. -/
inductive Event where
  | testing (mode : Int) : Event
  | report (d : Diag) : Event
deriving DecidableEq

/-- What the environment delivers to one call of `doit`: for each of the five
`calloc` calls whether it returned a non-NULL pointer, the contents of
`input_data` and `classes` after `prepare_inputs`, and the contents of
`before_ticks` and `after_ticks` after `measure` ran under the given mode. -/
structure RoundEnv where
  before_ticks_ok : Bool
  after_ticks_ok : Bool
  exec_times_ok : Bool
  classes_ok : Bool
  input_data_ok : Bool
  input_data : List Nat
  classes : List Nat
  measure : Int → List Int × List Int

/-- Program state: the contents of the static test context `t`, the output
written so far, and the environment of the rounds still to come (`rounds 0` is
consumed by the next call of `doit`). -/
structure World where
  t : t_ctx
  stdout : List Event
  rounds : Nat → RoundEnv

/-- Result of running a function: it returns a value, the process terminates
with an exit status, or the behaviour is undefined (division by zero). -/
inductive Outcome (α : Type) where
  | ret (val : α) (w : World) : Outcome α
  | terminated (status : Nat) (w : World) : Outcome α
  | fault : Outcome α

/-- Sequencing: the continuation runs only after a normal return. -/
def Outcome.bind {α β : Type} (o : Outcome α) (k : α → World → Outcome β) : Outcome β :=
  match o with
  | Outcome.ret a w => k a w
  | Outcome.terminated s w => Outcome.terminated s w
  | Outcome.fault => Outcome.fault

/-! ## `report` -/

/-- Threshold `t_threshold_bananas`. -/
def t_threshold_bananas : Int := 500

/-- Threshold `t_threshold_moderate`. -/
def t_threshold_moderate : Int := 10

/-- Function `die`: `exit(111)`. -/
def die {α : Type} (w : World) : Outcome α := Outcome.terminated 111 w

/-- The diagnostics `report` prints for the context `t`. -/
def report_diag (T : Ttest) (A : Arith) (cfg : Config) (t : t_ctx) : Diag :=
  let max_t := F64.fabs (T.t_compute t)
  let number_traces_max_t := A.ofInt ((t.n0 : Int) + (t.n1 : Int))
  let max_tau := A.div max_t (A.sqrt number_traces_max_t)
  { meas := A.div number_traces_max_t (F64.fin 1000000)
    still_to_go :=
      if F64.lt number_traces_max_t (A.ofInt cfg.enough_measurements) then
        some (A.sub (A.ofInt cfg.enough_measurements) number_traces_max_t)
      else none
    max_t := max_t
    max_tau := max_tau
    five_over_tau_sq := A.div (A.ofInt (5 * 5)) (A.mul max_tau max_tau)
    mu0 := t.mean0
    mu1 := t.mean1
    dmu := A.sub t.mean1 t.mean0
    s0 := A.sqrt (A.div t.m2_0 (A.ofInt ((t.n0 : Int) - 1)))
    s1 := A.sqrt (A.div t.m2_0 (A.ofInt ((t.n0 : Int) - 1)))
    m20 := t.m2_0
    m21 := t.m2_1 }

/-- Function `report`: prints the diagnostics and returns the verdict of the round. -/
def report (T : Ttest) (A : Arith) (cfg : Config) (w : World) : Bool × World :=
  let max_t := F64.fabs (T.t_compute w.t)
  let w1 := { w with stdout := w.stdout ++ [Event.report (report_diag T A cfg w.t)] }
  if F64.gt max_t (F64.ofInt t_threshold_bananas) then (false, w1)
  else if F64.gt max_t (F64.ofInt t_threshold_moderate) then (false, w1)
  else (true, w1)

/-! ## `doit` -/

/-- Function `doit`: one measurement round. The five buffers are allocated; if one
allocation failed the process dies. Otherwise the inputs are prepared, the
measurement is taken, and the samples are differentiated, filtered into the test
context and reported. -/
def doit (T : Ttest) (A : Arith) (cfg : Config) (mode : Int) (w : World) : Outcome Bool :=
  let N := cfg.number_measurements
  let env := w.rounds 0
  if !env.before_ticks_ok || !env.after_ticks_ok || !env.exec_times_ok || !env.classes_ok ||
      !env.input_data_ok then
    die w
  else
    let b : Buffers :=
      { before_ticks := List.replicate (N + 1) 0
        after_ticks := List.replicate (N + 1) 0
        exec_times := List.replicate N 0
        classes := List.replicate N 0
        input_data := List.replicate (N * cfg.chunk_size) 0 }
    -- prepare_inputs(input_data, classes)
    let b := { b with input_data := env.input_data, classes := env.classes }
    -- measure(before_ticks, after_ticks, input_data, classes, mode)
    let b := { b with before_ticks := (env.measure mode).1, after_ticks := (env.measure mode).2 }
    let b := differentiate N b
    let t1 := update_statistics T N b.exec_times b.classes w.t
    let r := report T A cfg { w with t := t1, rounds := fun k => w.rounds (k + 1) }
    Outcome.ret r.1 r.2

/-! ## Campaigns -/

/-- Function `init_once`: `t_init(t)`. -/
def init_once (T : Ttest) (w : World) : World := { w with t := T.t_init w.t }

/-- Two's complement wrap of a mathematical integer into `int`. -/
def wrap32 (z : Int) : Int := (z + 2 ^ 31) % 2 ^ 32 - 2 ^ 31

/-- The loop bound `enough_measurements / (number_measurements - drop_size * 2) + 1`
of both campaigns, evaluated in `size_t` arithmetic as C's conversions prescribe;
`none` when the divisor is zero. -/
def loop_bound (cfg : Config) : Option Nat :=
  let divisor := to_size_t ((cfg.number_measurements : Int) - wrap32 (cfg.drop_size * 2))
  if divisor = 0 then none
  else some ((to_size_t cfg.enough_measurements / divisor + 1) % 2 ^ 64)

/-- The loop `for (int i = 0; i < bound; ++i) result = doit(mode);`. The bound is
loop invariant (`doit` assigns none of the three configuration variables). A
round that terminates the process ends the loop. The counter `i` is kept as a
natural number: for a non-negative `int enough_measurements` the bound is at
most `2^31`, every value of `i` the body sees fits in `int`, and the final
increment can leave `int` only when the bound is exactly `2^31`. -/
def campaign_loop (T : Ttest) (A : Arith) (cfg : Config) (mode : Int) (bound : Nat)
    (result : Bool) (w : World) : Outcome Bool :=
  forLoop (fun _ o => Outcome.bind o (fun _ w => doit T A cfg mode w)) bound
    (Outcome.ret result w)

/-- Function `is_insert_tail_const`. The freshly allocated context has arbitrary
contents (those of `w.t`) until `init_once` runs. -/
def is_insert_tail_const (T : Ttest) (A : Arith) (cfg : Config) (w : World) : Outcome Bool :=
  let result := false
  let w := { w with stdout := w.stdout ++ [Event.testing 0] }
  let w := init_once T w
  match loop_bound cfg with
  | none => Outcome.fault
  | some bound => campaign_loop T A cfg 0 bound result w

/-- Function `is_size_const`, the same campaign under mode 1. -/
def is_size_const (T : Ttest) (A : Arith) (cfg : Config) (w : World) : Outcome Bool :=
  let result := false
  let w := { w with stdout := w.stdout ++ [Event.testing 1] }
  let w := init_once T w
  match loop_bound cfg with
  | none => Outcome.fault
  | some bound => campaign_loop T A cfg 1 bound result w

/-! ## Specification-side definitions -/

/-- The pairs `(exec_times[i], classes[i])`, `i < N`, with a strictly positive
first component, in increasing index order. -/
def accepted (N : Nat) (exec_times : List Int) (classes : List Nat) : List (Int × Nat) :=
  ((List.range N).map (fun i => (exec_times.getD i 0, classes.getD i 0))).filter
    (fun p => decide (0 < p.1))

/-- Applying `t_push` to a list of samples, first to last. -/
def push_all (T : Ttest) (samples : List (Int × Nat)) (t : t_ctx) : t_ctx :=
  samples.foldl (fun t p => T.t_push t p.1 p.2) t

/-- Ceiling of `a / b` on natural numbers. -/
def ceil_div (a b : Nat) : Nat := (a + b - 1) / b

/-- Number of round reports in an output. -/
def reports_emitted : List Event → Nat
  | [] => 0
  | Event.report _ :: l => reports_emitted l + 1
  | Event.testing _ :: l => reports_emitted l

/-- All five allocations of a round succeeded. -/
def RoundEnv.all_ok (e : RoundEnv) : Bool :=
  e.before_ticks_ok && e.after_ticks_ok && e.exec_times_ok && e.classes_ok && e.input_data_ok

/-- The samples round `k` of a campaign under `mode` hands to `t_push`: the
strictly positive differences `after_ticks[i] - before_ticks[i]` (in `int64_t`)
with their labels, in index order. -/
def round_samples (N : Nat) (mode : Int) (e : RoundEnv) : List (Int × Nat) :=
  accepted N
    (differentiate N
      { before_ticks := (e.measure mode).1
        after_ticks := (e.measure mode).2
        exec_times := List.replicate N 0
        classes := e.classes
        input_data := e.input_data }).exec_times
    e.classes

/-- The accepted samples of the first `k` rounds, in round order. -/
def campaign_samples (N : Nat) (mode : Int) (rounds : Nat → RoundEnv) (k : Nat) :
    List (Int × Nat) :=
  (List.range k).flatMap (fun j => round_samples N mode (rounds j))

/-- The value an outcome returns, if it returns. -/
def Outcome.val? {α : Type} : Outcome α → Option α
  | Outcome.ret v _ => some v
  | _ => none

/-- The final state of an outcome that returns. -/
def Outcome.world? {α : Type} : Outcome α → Option World
  | Outcome.ret _ w => some w
  | _ => none

/-- The verdicts of up to `k` successive calls of `doit`, first round first; the
list stops at a round that does not return. -/
def round_verdicts (T : Ttest) (A : Arith) (cfg : Config) (mode : Int) :
    Nat → World → List Bool
  | 0, _ => []
  | k + 1, w =>
    match doit T A cfg mode w with
    | Outcome.ret v w1 => v :: round_verdicts T A cfg mode k w1
    | _ => []

/-- The state in which the first round of a campaign starts: banner printed,
context initialised. -/
def campaign_start (T : Ttest) (mode : Int) (w : World) : World :=
  init_once T { w with stdout := w.stdout ++ [Event.testing mode] }

/-- The configuration is within the C types (`enough_measurements` and
`drop_size * 2` are `int`, `number_measurements` is `size_t`) and satisfies
`enough_measurements >= 0`, `drop_size >= 0`, `number_measurements > 2 * drop_size`. -/
def Config.wf (cfg : Config) : Prop :=
  0 ≤ cfg.enough_measurements ∧ cfg.enough_measurements < 2 ^ 31 ∧
  0 ≤ cfg.drop_size ∧ cfg.drop_size * 2 < 2 ^ 31 ∧
  2 * cfg.drop_size < (cfg.number_measurements : Int) ∧ cfg.number_measurements < 2 ^ 64

/-- The number `floor(enough_measurements / (N - 2 * drop_size)) + 1`. -/
def rounds_run (cfg : Config) : Nat :=
  cfg.enough_measurements.toNat / (cfg.number_measurements - 2 * cfg.drop_size.toNat) + 1

/-- The number `ceil(enough_measurements / (N - 2 * drop_size))`. -/
def rounds_ceil (cfg : Config) : Nat :=
  ceil_div cfg.enough_measurements.toNat (cfg.number_measurements - 2 * cfg.drop_size.toNat)

/-! ## Exact arithmetic and a reference `ttest`

Used to evaluate the program on concrete inputs all of whose intermediate values
are small dyadic rationals, where IEEE 754 arithmetic does not round. -/

namespace F64

/-- Sign of a value: `-1`, `0` or `1`; `0` for NaN. -/
def sgn : F64 → Int
  | nan => 0
  | ninf => -1
  | pinf => 1
  | fin q => if q < 0 then -1 else if q = 0 then 0 else 1

/-- The infinity of the given sign, NaN for sign `0`. -/
def inf_of_sign (s : Int) : F64 := if s = 0 then nan else if 0 < s then pinf else ninf

/-- Negation. -/
def neg : F64 → F64
  | nan => nan
  | ninf => pinf
  | pinf => ninf
  | fin q => fin (-q)

/-- Addition without rounding. -/
def add : F64 → F64 → F64
  | nan, _ => nan
  | _, nan => nan
  | fin a, fin b => fin (a + b)
  | pinf, ninf => nan
  | ninf, pinf => nan
  | pinf, _ => pinf
  | _, pinf => pinf
  | ninf, _ => ninf
  | _, ninf => ninf

/-- Subtraction without rounding. -/
def sub (a b : F64) : F64 := add a (neg b)

/-- Multiplication without rounding. -/
def mul : F64 → F64 → F64
  | nan, _ => nan
  | _, nan => nan
  | fin a, fin b => fin (a * b)
  | a, b => inf_of_sign (sgn a * sgn b)

/-- Division without rounding; a zero divisor counts as `+0`. -/
def div : F64 → F64 → F64
  | nan, _ => nan
  | _, nan => nan
  | fin a, fin b => if b = 0 then inf_of_sign (sgn (fin a)) else fin (a / b)
  | fin _, _ => fin 0
  | a, fin b => if b < 0 then neg a else a
  | _, _ => nan

/-- Integer square root (floor). -/
def isqrt (n : Nat) : Nat := ((List.range (n + 1)).filter (fun k => k * k ≤ n)).length - 1

/-- Square root, exact on squares of rationals (floor of numerator and
denominator otherwise). -/
def sqrt : F64 → F64
  | nan => nan
  | ninf => nan
  | pinf => pinf
  | fin q => if q < 0 then nan else fin ((isqrt q.num.toNat : ℚ) / (isqrt q.den : ℚ))

end F64

/-- Arithmetic without rounding. -/
def exactArith : Arith :=
  { add := F64.add, sub := F64.sub, mul := F64.mul, div := F64.div, sqrt := F64.sqrt,
    ofInt := F64.ofInt }

/-- Modelled from the spec: `ttest.c` (`t_init`) is not among the sources.
`reset()` zeroes all per-class counters. -/
def welford_init (_ : t_ctx) : t_ctx :=
  { mean0 := F64.fin 0, mean1 := F64.fin 0, m2_0 := F64.fin 0, m2_1 := F64.fin 0, n0 := 0, n1 := 0 }

/-- Modelled from the spec: `ttest.c` (`t_push`) is not among the sources.
`push(class, value)` updates the count, mean and M2 of the class by Welford's
online algorithm; a label other than 0 or 1 is outside its contract and leaves
the context as it is. -/
def welford_push (t : t_ctx) (x : Int) (c : Nat) : t_ctx :=
  if c = 0 then
    let n := t.n0 + 1
    let delta := F64.sub (F64.ofInt x) t.mean0
    let mean := F64.add t.mean0 (F64.div delta (F64.ofInt n))
    { t with n0 := n, mean0 := mean, m2_0 := F64.add t.m2_0 (F64.mul delta (F64.sub (F64.ofInt x) mean)) }
  else if c = 1 then
    let n := t.n1 + 1
    let delta := F64.sub (F64.ofInt x) t.mean1
    let mean := F64.add t.mean1 (F64.div delta (F64.ofInt n))
    { t with n1 := n, mean1 := mean, m2_1 := F64.add t.m2_1 (F64.mul delta (F64.sub (F64.ofInt x) mean)) }
  else t

/-- Modelled from the spec: `ttest.c` (`t_compute`) is not among the sources.
`compute()` returns `(mean1 - mean0) / sqrt(var0/n0 + var1/n1)` with
`var_i = M2_i / (n_i - 1)`, and NaN if a class has fewer than 2 samples. -/
def welch_compute (t : t_ctx) : F64 :=
  if t.n0 < 2 ∨ t.n1 < 2 then F64.nan
  else
    let var0 := F64.div t.m2_0 (F64.ofInt ((t.n0 : Int) - 1))
    let var1 := F64.div t.m2_1 (F64.ofInt ((t.n1 : Int) - 1))
    F64.div (F64.sub t.mean1 t.mean0)
      (F64.sqrt (F64.add (F64.div var0 (F64.ofInt t.n0)) (F64.div var1 (F64.ofInt t.n1))))

/-- The reference `ttest`: Welford's update and Welch's statistic. -/
def welchTtest : Ttest :=
  { t_init := welford_init, t_push := welford_push, t_compute := welch_compute }

/-! ## Concrete inputs -/

/-- A round whose allocations all succeed, with the given labels and tick
readings. -/
def round_of (classes : List Nat) (before after : List Int) : RoundEnv :=
  { before_ticks_ok := true, after_ticks_ok := true, exec_times_ok := true,
    classes_ok := true, input_data_ok := true,
    input_data := List.replicate classes.length 0,
    classes := classes,
    measure := fun _ => (before, after) }

/-- Configuration with four measurements per round and a budget of four:
the loop bound is `4 / 4 + 1 = 2`. -/
def cfg4 : Config :=
  { enough_measurements := 4, drop_size := 0, chunk_size := 1, number_measurements := 4 }

/-- First round: class 0 measures 1 and 7 ticks, class 1 measures 100 and 108. -/
def round_a : RoundEnv := round_of [0, 0, 1, 1] [10, 20, 30, 40, 0] [11, 27, 130, 148, 0]

/-- Second round: class 0 measures 4, 10, 28 and 100 ticks. -/
def round_b : RoundEnv := round_of [0, 0, 0, 0] [50, 60, 70, 80, 0] [54, 70, 98, 180, 0]

/-- A context with arbitrary contents, standing for fresh `malloc` memory. -/
def ctx_garbage : t_ctx :=
  { mean0 := F64.nan, mean1 := F64.fin 7, m2_0 := F64.pinf, m2_1 := F64.fin 3, n0 := 5, n1 := 9 }

/-- Initial state: round `round_a`, then `round_b` for every later round. -/
def world_ab : World :=
  { t := ctx_garbage, stdout := [], rounds := fun k => if k = 0 then round_a else round_b }

/-- The end-to-end scenario of the specification: round size 1000, drop size 0,
a budget of 100000 measurements. -/
def cfg1000 : Config :=
  { enough_measurements := 100000, drop_size := 0, chunk_size := 1, number_measurements := 1000 }

/-- Every round of the scenario: alternating labels, each measurement 1000
ticks long. -/
def world1000 : World :=
  { t := ctx_garbage, stdout := [],
    rounds := fun _ =>
      round_of ((List.range 1000).map (fun i => i % 2)) (List.replicate 1001 0)
        (List.replicate 1001 1000) }

/-- A test context with three samples per class: class 0 holds 0, 3, 6
(mean 3, M2 18, standard deviation 3), class 1 holds 0, 4, 8 (mean 4, M2 32,
standard deviation 4). -/
def ctx_s1 : t_ctx :=
  { mean0 := F64.fin 3, mean1 := F64.fin 4, m2_0 := F64.fin 18, m2_1 := F64.fin 32,
    n0 := 3, n1 := 3 }

/-- A round in which the allocation of `classes` failed. -/
def round_failed : RoundEnv :=
  { round_a with classes_ok := false }

/-- A state whose next round fails to allocate. -/
def world_failed : World :=
  { t := ctx_s1, stdout := [], rounds := fun _ => round_failed }

/-- Buffers of a round of four measurements; the tick counter went backwards in
slot 1 and stood still in slot 3. -/
def buffers4 : Buffers :=
  { before_ticks := [10, 20, 30, 40, 0]
    after_ticks := [15, 12, 37, 40, 0]
    exec_times := [0, 0, 0, 0]
    classes := [0, 1, 1, 0]
    input_data := [0, 0, 0, 0] }

/-- A test context with two samples per class, class variances 18 and 32 and
class means 4 and `4 + g`: Welch's statistic is `g / 5`. -/
def ctx_gap (g : ℚ) : t_ctx :=
  { mean0 := F64.fin 4, mean1 := F64.fin (4 + g), m2_0 := F64.fin 18, m2_1 := F64.fin 32,
    n0 := 2, n1 := 2 }

/-- A state with the given test context. -/
def world_of (t : t_ctx) : World :=
  { t := t, stdout := [], rounds := fun _ => round_a }

/-! ## Loop lemmas -/

theorem forLoop_eq_foldl {σ : Type} (body : Nat → σ → σ) (n : Nat) (s : σ) :
    forLoop body n s = (List.range n).foldl (fun s i => body i s) s := by
  induction n with
  | zero => rfl
  | succ n ih => simp [forLoop, List.range_succ, List.foldl_append, ih]

theorem foldl_filter_skip {α σ : Type} (p : α → Bool) (f : σ → α → σ) (l : List α) (s : σ) :
    l.foldl (fun s a => if p a then f s a else s) s = (l.filter p).foldl f s := by
  induction l generalizing s with
  | nil => rfl
  | cons a l ih =>
    by_cases h : p a = true
    · simp [List.filter, h, ih]
    · simp [List.filter, h, ih]

theorem update_statistics_eq_push_all (T : Ttest) (N : Nat) (exec_times : List Int)
    (classes : List Nat) (t : t_ctx) :
    update_statistics T N exec_times classes t = push_all T (accepted N exec_times classes) t := by
  unfold update_statistics push_all accepted
  rw [forLoop_eq_foldl, ← foldl_filter_skip, List.foldl_map]
  congr 1
  funext t i
  simp only [decide_eq_true_eq]
  split_ifs <;> first | rfl | omega

theorem range_map_getD_eq_zip (e : List Int) (c : List Nat) (h : e.length = c.length) :
    (List.range e.length).map (fun i => (e.getD i 0, c.getD i 0)) = e.zip c := by
  apply List.ext_getElem
  · simp [h]
  · intro i h1 h2
    simp at h1
    have h3 : i < c.length := h ▸ h1
    simp [List.getD_eq_getElem, h1, h3]

theorem accepted_eq_filter_zip (e : List Int) (c : List Nat) (h : e.length = c.length) :
    accepted e.length e c = (e.zip c).filter (fun p => decide (0 < p.1)) := by
  unfold accepted
  rw [range_map_getD_eq_zip e c h]

theorem accepted_insert (e1 e2 : List Int) (c1 c2 : List Nat) (v : Int) (c : Nat)
    (h1 : e1.length = c1.length) (h2 : e2.length = c2.length) (hv : v ≤ 0) :
    accepted (e1 ++ v :: e2).length (e1 ++ v :: e2) (c1 ++ c :: c2)
      = accepted (e1 ++ e2).length (e1 ++ e2) (c1 ++ c2) := by
  rw [accepted_eq_filter_zip _ _ (by simp [h1, h2]),
    accepted_eq_filter_zip _ _ (by simp [h1, h2])]
  rw [List.zip_append h1, List.zip_append h1]
  have hv2 : ¬ (0 < v) := not_lt.mpr hv
  simp [List.filter_append, List.filter, hv2]

/-! ## `differentiate` -/

theorem differentiate_loop (b : Buffers) (n : Nat) :
    (forLoop differentiate_body n b).before_ticks = b.before_ticks ∧
    (forLoop differentiate_body n b).after_ticks = b.after_ticks ∧
    (forLoop differentiate_body n b).classes = b.classes ∧
    (forLoop differentiate_body n b).input_data = b.input_data ∧
    (forLoop differentiate_body n b).exec_times.length = b.exec_times.length ∧
    ∀ i, i < b.exec_times.length →
      (forLoop differentiate_body n b).exec_times[i]? =
        if i < n then some (wrap64 (b.after_ticks.getD i 0 - b.before_ticks.getD i 0))
        else b.exec_times[i]? := by
  induction n with
  | zero => simp [forLoop]
  | succ n ih =>
    obtain ⟨hb, ha, hc, hi, hl, hx⟩ := ih
    refine ⟨hb, ha, hc, hi, ?_, ?_⟩
    · show ((forLoop differentiate_body n b).exec_times.set n _).length = _
      rw [List.length_set, hl]
    · intro i hlt
      show ((forLoop differentiate_body n b).exec_times.set n _)[i]? = _
      rw [hb, ha]
      by_cases hin : n = i
      · subst hin
        rw [List.getElem?_set_self (by rw [hl]; exact hlt)]
        simp
      · rw [List.getElem?_set_ne hin, hx i hlt]
        by_cases h1 : i < n
        · have h2 : i < n + 1 := by omega
          simp [h1, h2]
        · have h2 : ¬ i < n + 1 := by omega
          simp [h1, h2]

theorem wrap64_of_fits (z : Int) (h1 : -(2 ^ 63) ≤ z) (h2 : z < 2 ^ 63) : wrap64 z = z := by
  unfold wrap64
  omega

/-! ## `report` and `doit` -/

theorem report_world (T : Ttest) (A : Arith) (cfg : Config) (w : World) :
    (report T A cfg w).2 =
      { w with stdout := w.stdout ++ [Event.report (report_diag T A cfg w.t)] } := by
  simp only [report]
  split_ifs <;> rfl

theorem reports_emitted_append (l1 l2 : List Event) :
    reports_emitted (l1 ++ l2) = reports_emitted l1 + reports_emitted l2 := by
  induction l1 with
  | nil => simp [reports_emitted]
  | cons e l ih =>
    cases e with
    | testing m => simp [reports_emitted, ih]
    | report d => simp [reports_emitted, ih]; omega

theorem doit_of_all_ok (T : Ttest) (A : Arith) (cfg : Config) (mode : Int) (w : World)
    (h : (w.rounds 0).all_ok = true) :
    doit T A cfg mode w =
      Outcome.ret
        (report T A cfg
          { w with
            t := push_all T (round_samples cfg.number_measurements mode (w.rounds 0)) w.t
            rounds := fun k => w.rounds (k + 1) }).1
        { t := push_all T (round_samples cfg.number_measurements mode (w.rounds 0)) w.t
          stdout := w.stdout ++
            [Event.report (report_diag T A cfg
              (push_all T (round_samples cfg.number_measurements mode (w.rounds 0)) w.t))]
          rounds := fun k => w.rounds (k + 1) } := by
  unfold RoundEnv.all_ok at h
  simp only [Bool.and_eq_true] at h
  obtain ⟨⟨⟨⟨h1, h2⟩, h3⟩, h4⟩, h5⟩ := h
  unfold doit
  simp only [h1, h2, h3, h4, h5, Bool.not_true, Bool.or_self, Bool.false_eq_true, if_false]
  rw [report_world]
  simp only [round_samples, update_statistics_eq_push_all]
  have hc := (differentiate_loop
    { before_ticks := ((w.rounds 0).measure mode).1
      after_ticks := ((w.rounds 0).measure mode).2
      exec_times := List.replicate cfg.number_measurements 0
      classes := (w.rounds 0).classes
      input_data := (w.rounds 0).input_data } cfg.number_measurements).2.2.1
  simp only [differentiate, hc]

theorem doit_of_not_all_ok (T : Ttest) (A : Arith) (cfg : Config) (mode : Int) (w : World)
    (h : (w.rounds 0).all_ok = false) :
    doit T A cfg mode w = Outcome.terminated 111 w := by
  unfold RoundEnv.all_ok at h
  unfold doit die
  rw [if_pos]
  revert h
  cases (w.rounds 0).before_ticks_ok <;> cases (w.rounds 0).after_ticks_ok <;>
    cases (w.rounds 0).exec_times_ok <;> cases (w.rounds 0).classes_ok <;>
    cases (w.rounds 0).input_data_ok <;> simp

/-! ## The campaign loop -/

theorem forLoop_const_succ {σ : Type} (f : σ → σ) (n : Nat) (s : σ) :
    forLoop (fun _ => f) (n + 1) s = forLoop (fun _ => f) n (f s) := by
  induction n with
  | zero => rfl
  | succ n ih =>
    show f (forLoop (fun _ => f) (n + 1) s) = f (forLoop (fun _ => f) n (f s))
    rw [ih]

theorem campaign_loop_zero (T : Ttest) (A : Arith) (cfg : Config) (mode : Int) (r : Bool)
    (w : World) : campaign_loop T A cfg mode 0 r w = Outcome.ret r w := rfl

theorem campaign_loop_succ (T : Ttest) (A : Arith) (cfg : Config) (mode : Int) (n : Nat)
    (r : Bool) (w : World) :
    campaign_loop T A cfg mode (n + 1) r w =
      Outcome.bind (doit T A cfg mode w) (fun v w1 => campaign_loop T A cfg mode n v w1) := by
  unfold campaign_loop
  rw [forLoop_const_succ]
  cases hd : doit T A cfg mode w with
  | ret v w1 => simp [Outcome.bind, hd]
  | terminated s w1 =>
    simp only [Outcome.bind, hd]
    clear hd
    induction n with
    | zero => rfl
    | succ n ih => simp only [forLoop, ih, Outcome.bind]
  | fault =>
    simp only [Outcome.bind, hd]
    clear hd
    induction n with
    | zero => rfl
    | succ n ih => simp only [forLoop, ih, Outcome.bind]

theorem campaign_samples_succ (N : Nat) (mode : Int) (rounds : Nat → RoundEnv) (n : Nat) :
    campaign_samples N mode rounds (n + 1) =
      round_samples N mode (rounds 0) ++ campaign_samples N mode (fun k => rounds (k + 1)) n := by
  unfold campaign_samples
  rw [List.range_succ_eq_map]
  simp [List.flatMap, List.map_map, Function.comp_def]

theorem push_all_append (T : Ttest) (l1 l2 : List (Int × Nat)) (t : t_ctx) :
    push_all T (l1 ++ l2) t = push_all T l2 (push_all T l1 t) := by
  simp [push_all, List.foldl_append]

/-- A campaign loop all of whose rounds allocate successfully returns; its final
context, remaining environment, report count and result are as stated. -/
theorem campaign_loop_run (T : Ttest) (A : Arith) (cfg : Config) (mode : Int) (bound : Nat) :
    ∀ (r : Bool) (w : World), (∀ k, k < bound → (w.rounds k).all_ok = true) →
    ∃ v w1, campaign_loop T A cfg mode bound r w = Outcome.ret v w1 ∧
      w1.t = push_all T (campaign_samples cfg.number_measurements mode w.rounds bound) w.t ∧
      w1.rounds = (fun k => w.rounds (k + bound)) ∧
      reports_emitted w1.stdout = reports_emitted w.stdout + bound ∧
      (round_verdicts T A cfg mode bound w).length = bound ∧
      (round_verdicts T A cfg mode bound w).getLast? = (if bound = 0 then none else some v) ∧
      (bound = 0 → v = r) := by
  induction bound with
  | zero =>
    intro r w _
    exact ⟨r, w, rfl, by simp [campaign_samples, push_all], by simp, by simp,
      by simp [round_verdicts], by simp [round_verdicts], fun _ => rfl⟩
  | succ n ih =>
    intro r w hok
    have h0 : (w.rounds 0).all_ok = true := hok 0 (Nat.succ_pos n)
    have hd := doit_of_all_ok T A cfg mode w h0
    obtain ⟨v, w1, hrun, ht, hr, he, hl, hlast, hz⟩ :=
      ih (report T A cfg
          { w with
            t := push_all T (round_samples cfg.number_measurements mode (w.rounds 0)) w.t
            rounds := fun k => w.rounds (k + 1) }).1
        { t := push_all T (round_samples cfg.number_measurements mode (w.rounds 0)) w.t
          stdout := w.stdout ++
            [Event.report (report_diag T A cfg
              (push_all T (round_samples cfg.number_measurements mode (w.rounds 0)) w.t))]
          rounds := fun k => w.rounds (k + 1) }
        (fun k hk => hok (k + 1) (Nat.succ_lt_succ hk))
    refine ⟨v, w1, ?_, ?_, ?_, ?_, ?_, ?_, ?_⟩
    · rw [campaign_loop_succ, hd]
      exact hrun
    · rw [ht, campaign_samples_succ, push_all_append]
    · rw [hr]
      funext k
      show w.rounds (k + n + 1) = w.rounds (k + (n + 1))
      rfl
    · rw [he, reports_emitted_append]
      simp [reports_emitted]
      omega
    · simp only [round_verdicts, hd, List.length_cons, hl]
    · simp only [round_verdicts, hd]
      rw [List.getLast?_cons, hlast]
      by_cases hn : n = 0
      · have := hz hn
        simp [hn, this]
      · simp [hn]
    · intro h
      exact absurd h (Nat.succ_ne_zero n)

theorem loop_bound_of_wf (cfg : Config) (h : cfg.wf) : loop_bound cfg = some (rounds_run cfg) := by
  obtain ⟨h1, h2, h3, h4, h5, h6⟩ := h
  have hw : wrap32 (cfg.drop_size * 2) = cfg.drop_size * 2 := by
    unfold wrap32
    omega
  have hdiv : to_size_t ((cfg.number_measurements : Int) - cfg.drop_size * 2)
      = cfg.number_measurements - 2 * cfg.drop_size.toNat := by
    unfold to_size_t
    omega
  have hem : to_size_t cfg.enough_measurements = cfg.enough_measurements.toNat := by
    unfold to_size_t
    omega
  have hpos : cfg.number_measurements - 2 * cfg.drop_size.toNat ≠ 0 := by omega
  have hq : cfg.enough_measurements.toNat / (cfg.number_measurements - 2 * cfg.drop_size.toNat)
      ≤ cfg.enough_measurements.toNat := Nat.div_le_self _ _
  unfold loop_bound rounds_run
  simp only [hw, hdiv, hem, if_neg hpos]
  congr 1
  apply Nat.mod_eq_of_lt
  omega

/-! ## Evaluation on the concrete inputs -/

theorem sqrt_fin_of_isqrt (q r : ℚ) (h0 : ¬ q < 0)
    (h : (F64.isqrt q.num.toNat : ℚ) / (F64.isqrt q.den : ℚ) = r) :
    F64.sqrt (F64.fin q) = F64.fin r := by
  simp only [F64.sqrt, if_neg h0, h]

theorem sqrt_nat (n k : Nat) (h : F64.isqrt n = k) :
    F64.sqrt (F64.fin (n : ℚ)) = F64.fin (k : ℚ) := by
  apply sqrt_fin_of_isqrt
  · exact not_lt.mpr (Nat.cast_nonneg n)
  · have h1 : F64.isqrt 1 = 1 := by decide
    simp [h, h1]

theorem sqrt_9 : F64.sqrt (F64.fin 9) = F64.fin 3 := by
  have := sqrt_nat 9 3 (by decide)
  simpa using this

theorem sqrt_256 : F64.sqrt (F64.fin 256) = F64.fin 16 := by
  have := sqrt_nat 256 16 (by decide)
  simpa using this

theorem sqrt_25 : F64.sqrt (F64.fin 25) = F64.fin 5 := by
  have := sqrt_nat 25 5 (by decide)
  simpa using this

theorem sqrt_16 : F64.sqrt (F64.fin 16) = F64.fin 4 := by
  have := sqrt_nat 16 4 (by decide)
  simpa using this

theorem round_a_samples : round_samples 4 0 round_a = [(1, 0), (7, 0), (100, 1), (108, 1)] := by
  decide

theorem round_b_samples : round_samples 4 0 round_b = [(4, 0), (10, 0), (28, 0), (100, 0)] := by
  decide

theorem push_round_a :
    push_all welchTtest [(1, 0), (7, 0), (100, 1), (108, 1)] (welford_init ctx_garbage)
      = ⟨F64.fin 4, F64.fin 104, F64.fin 18, F64.fin 32, 2, 2⟩ := by
  simp [push_all, welchTtest, welford_push, welford_init, F64.add, F64.sub, F64.neg, F64.mul,
    F64.div, F64.ofInt]
  norm_num

theorem push_round_b :
    push_all welchTtest [(4, 0), (10, 0), (28, 0), (100, 0)]
        ⟨F64.fin 4, F64.fin 104, F64.fin 18, F64.fin 32, 2, 2⟩
      = ⟨F64.fin 25, F64.fin 104, F64.fin 7200, F64.fin 32, 6, 2⟩ := by
  simp [push_all, welchTtest, welford_push, F64.add, F64.sub, F64.neg, F64.mul,
    F64.div, F64.ofInt]
  norm_num

theorem welch_after_a :
    welch_compute ⟨F64.fin 4, F64.fin 104, F64.fin 18, F64.fin 32, 2, 2⟩ = F64.fin 20 := by
  have h : F64.sqrt (F64.fin (18 / 2 + 32 / 2)) = F64.fin 5 := by
    rw [show ((18 : ℚ) / 2 + 32 / 2) = 25 by norm_num]
    exact sqrt_25
  simp [welch_compute, F64.add, F64.sub, F64.neg, F64.div, F64.ofInt, h]
  norm_num

theorem welch_after_b :
    welch_compute ⟨F64.fin 25, F64.fin 104, F64.fin 7200, F64.fin 32, 6, 2⟩
      = F64.fin (79 / 16) := by
  have h : F64.sqrt (F64.fin (7200 / 5 / 6 + 32 / 2)) = F64.fin 16 := by
    rw [show ((7200 : ℚ) / 5 / 6 + 32 / 2) = 256 by norm_num]
    exact sqrt_256
  simp [welch_compute, F64.add, F64.sub, F64.neg, F64.div, F64.ofInt, h]
  norm_num

/-! ## The sample filter (`update_statistics`) and `differentiate` -/

/-- C1: `update_statistics` leaves the context equal to the result of applying
`t_push`, in increasing index order, to exactly the pairs
`(exec_times[i], classes[i])`, `i < N`, with `exec_times[i] > 0`; inserting a
non-positive entry anywhere in a round does not change the result; and a round
whose values are all non-positive leaves the context (count, mean and M2 of both
classes) unchanged. -/
theorem update_statistics_filters (T : Ttest) (t : t_ctx) (N : Nat) (exec_times : List Int)
    (classes : List Nat) :
    update_statistics T N exec_times classes t = push_all T (accepted N exec_times classes) t ∧
    (∀ (e1 e2 : List Int) (c1 c2 : List Nat) (v : Int) (c : Nat),
      e1.length = c1.length → e2.length = c2.length → v ≤ 0 →
      update_statistics T (e1 ++ v :: e2).length (e1 ++ v :: e2) (c1 ++ c :: c2) t
        = update_statistics T (e1 ++ e2).length (e1 ++ e2) (c1 ++ c2) t) ∧
    ((∀ i, i < N → exec_times.getD i 0 ≤ 0) →
      update_statistics T N exec_times classes t = t ∧
      (update_statistics T N exec_times classes t).n0 = t.n0 ∧
      (update_statistics T N exec_times classes t).n1 = t.n1 ∧
      (update_statistics T N exec_times classes t).mean0 = t.mean0 ∧
      (update_statistics T N exec_times classes t).mean1 = t.mean1 ∧
      (update_statistics T N exec_times classes t).m2_0 = t.m2_0 ∧
      (update_statistics T N exec_times classes t).m2_1 = t.m2_1) := by
  refine ⟨update_statistics_eq_push_all T N exec_times classes t, ?_, ?_⟩
  · intro e1 e2 c1 c2 v c h1 h2 hv
    rw [update_statistics_eq_push_all, update_statistics_eq_push_all,
      accepted_insert e1 e2 c1 c2 v c h1 h2 hv]
  · intro h
    have hnil : accepted N exec_times classes = [] := by
      unfold accepted
      rw [List.filter_eq_nil_iff]
      intro p hp
      rw [List.mem_map] at hp
      obtain ⟨i, hi, rfl⟩ := hp
      have := h i (List.mem_range.mp hi)
      simp only [decide_eq_true_eq]
      omega
    have heq : update_statistics T N exec_times classes t = t := by
      rw [update_statistics_eq_push_all, hnil]
      rfl
    rw [heq]
    exact ⟨rfl, rfl, rfl, rfl, rfl, rfl, rfl⟩

/-- Instance of C1 with the reference `ttest`: of the samples 5, -2, 0, 9 only 5
and 9 are pushed; dropping the entry -2 gives the same context; the round -1, 0
changes nothing. -/
theorem update_statistics_filters_witness :
    update_statistics welchTtest 4 [5, -2, 0, 9] [0, 1, 1, 0] ctx_s1
      = push_all welchTtest [(5, 0), (9, 0)] ctx_s1 ∧
    update_statistics welchTtest 4 [5, -2, 0, 9] [0, 1, 1, 0] ctx_s1
      = update_statistics welchTtest 3 [5, 0, 9] [0, 1, 0] ctx_s1 ∧
    update_statistics welchTtest 2 [-1, 0] [0, 1] ctx_s1 = ctx_s1 :=
  ⟨(update_statistics_filters welchTtest ctx_s1 4 [5, -2, 0, 9] [0, 1, 1, 0]).1,
   (update_statistics_filters welchTtest ctx_s1 4 [5, -2, 0, 9] [0, 1, 1, 0]).2.1
      [5] [0, 9] [0] [1, 0] (-2) 1 rfl rfl (by decide),
   ((update_statistics_filters welchTtest ctx_s1 2 [-1, 0] [0, 1]).2.2 (by decide)).1⟩

/-- C7: when `exec_times` has `N` slots and every difference fits in `int64_t`,
`differentiate` sets `exec_times[i] = after_ticks[i] - before_ticks[i]` for every
`i < N` with the sign preserved, leaves `before_ticks` and `after_ticks`
unchanged, and a slot with `after_ticks[i] <= before_ticks[i]` yields a
non-positive sample, which is not among the samples the filter accepts. -/
theorem differentiate_subtracts (N : Nat) (b : Buffers) (hlen : b.exec_times.length = N)
    (hfit : ∀ i, i < N →
      -(2 ^ 63) ≤ b.after_ticks.getD i 0 - b.before_ticks.getD i 0 ∧
      b.after_ticks.getD i 0 - b.before_ticks.getD i 0 < 2 ^ 63) :
    (∀ i, i < N →
      (differentiate N b).exec_times[i]?
        = some (b.after_ticks.getD i 0 - b.before_ticks.getD i 0)) ∧
    (differentiate N b).exec_times.length = N ∧
    (differentiate N b).before_ticks = b.before_ticks ∧
    (differentiate N b).after_ticks = b.after_ticks ∧
    (∀ i, i < N → b.after_ticks.getD i 0 ≤ b.before_ticks.getD i 0 →
      (differentiate N b).exec_times.getD i 0 ≤ 0 ∧
      (i, (differentiate N b).exec_times.getD i 0, b.classes.getD i 0) ∉
        ((List.range N).map (fun j =>
          (j, (differentiate N b).exec_times.getD j 0, b.classes.getD j 0))).filter
          (fun p => decide (0 < p.2.1))) := by
  obtain ⟨hb, ha, _, _, hl, hx⟩ := differentiate_loop b N
  have hval : ∀ i, i < N →
      (differentiate N b).exec_times[i]?
        = some (b.after_ticks.getD i 0 - b.before_ticks.getD i 0) := by
    intro i hi
    unfold differentiate
    rw [hx i (hlen ▸ hi), if_pos hi, wrap64_of_fits _ (hfit i hi).1 (hfit i hi).2]
  refine ⟨hval, hl.trans hlen, hb, ha, ?_⟩
  intro i hi hle
  have hd : (differentiate N b).exec_times.getD i 0
      = b.after_ticks.getD i 0 - b.before_ticks.getD i 0 := by
    rw [List.getD_eq_getElem?_getD, hval i hi]
    rfl
  have hnp : (differentiate N b).exec_times.getD i 0 ≤ 0 := by
    rw [hd]
    omega
  refine ⟨hnp, ?_⟩
  intro hmem
  have := (List.mem_filter.mp hmem).2
  simp only [decide_eq_true_eq] at this
  omega

/-- Instance of C7 on `buffers4`: the differences are 5, -8, 7, 0 and the tick
arrays are unchanged. -/
theorem differentiate_subtracts_witness :
    (differentiate 4 buffers4).exec_times[0]? = some 5 ∧
    (differentiate 4 buffers4).exec_times[1]? = some (-8) ∧
    (differentiate 4 buffers4).exec_times[3]? = some 0 ∧
    (differentiate 4 buffers4).before_ticks = [10, 20, 30, 40, 0] ∧
    (differentiate 4 buffers4).exec_times.getD 1 0 ≤ 0 := by
  have hfit : ∀ i, i < 4 →
      -(2 ^ 63) ≤ buffers4.after_ticks.getD i 0 - buffers4.before_ticks.getD i 0 ∧
      buffers4.after_ticks.getD i 0 - buffers4.before_ticks.getD i 0 < 2 ^ 63 := by
    decide
  have h := differentiate_subtracts 4 buffers4 rfl hfit
  exact ⟨h.1 0 (by decide), h.1 1 (by decide), h.1 3 (by decide), h.2.2.1,
    (h.2.2.2.2 1 (by decide) (by decide)).1⟩

/-! ## The leak decision (`report`) -/

theorem report_verdict_eq (T : Ttest) (A : Arith) (cfg : Config) (w : World) :
    (report T A cfg w).1 =
      (!F64.gt (F64.fabs (T.t_compute w.t)) (F64.fin 500) &&
        !F64.gt (F64.fabs (T.t_compute w.t)) (F64.fin 10)) := by
  have h500 : F64.ofInt t_threshold_bananas = F64.fin 500 := by
    simp [F64.ofInt, t_threshold_bananas]
  have h10 : F64.ofInt t_threshold_moderate = F64.fin 10 := by
    simp [F64.ofInt, t_threshold_moderate]
  simp only [report, h500, h10]
  cases F64.gt (F64.fabs (T.t_compute w.t)) (F64.fin 500) <;>
    cases F64.gt (F64.fabs (T.t_compute w.t)) (F64.fin 10) <;> simp

/-- C2: with `max_t = |t_compute(ctx)|`, `report` returns false when
`max_t > 500`, false when `10 < max_t <= 500`, and true when `max_t <= 10`; the
boundary value `max_t = 10` passes, and the two fail bands give the same
verdict. -/
theorem report_verdict_bands (T : Ttest) (A : Arith) (cfg : Config) (w : World) :
    (F64.gt (F64.fabs (T.t_compute w.t)) (F64.fin 500) = true →
      (report T A cfg w).1 = false) ∧
    (F64.gt (F64.fabs (T.t_compute w.t)) (F64.fin 10) = true ∧
        F64.le (F64.fabs (T.t_compute w.t)) (F64.fin 500) = true →
      (report T A cfg w).1 = false) ∧
    (F64.le (F64.fabs (T.t_compute w.t)) (F64.fin 10) = true →
      (report T A cfg w).1 = true) ∧
    (F64.fabs (T.t_compute w.t) = F64.fin 10 → (report T A cfg w).1 = true) := by
  rw [report_verdict_eq]
  have key : ∀ x : F64, F64.le x (F64.fin 10) = true →
      F64.gt x (F64.fin 500) = false ∧ F64.gt x (F64.fin 10) = false := by
    intro x hx
    cases x with
    | nan => simp [F64.le] at hx
    | ninf => simp [F64.gt, F64.lt]
    | pinf => simp [F64.le] at hx
    | fin q =>
      simp only [F64.le, decide_eq_true_eq] at hx
      simp only [F64.gt, F64.lt, decide_eq_false_iff_not, not_lt]
      constructor
      · linarith
      · exact hx
  refine ⟨?_, ?_, ?_, ?_⟩
  · intro h
    simp [h]
  · intro h
    simp [h.1]
  · intro h
    obtain ⟨h1, h2⟩ := key _ h
    simp [h1, h2]
  · intro h
    have hle : F64.le (F64.fabs (T.t_compute w.t)) (F64.fin 10) = true := by
      rw [h]
      simp [F64.le]
    obtain ⟨h1, h2⟩ := key _ hle
    simp [h1, h2]

/-- C10: when `t_compute` returns NaN, `report` returns true: neither
`max_t > 500` nor `max_t > 10` holds for NaN. -/
theorem report_nan_passes (T : Ttest) (A : Arith) (cfg : Config) (w : World)
    (h : T.t_compute w.t = F64.nan) :
    F64.gt (F64.fabs (T.t_compute w.t)) (F64.fin 500) = false ∧
    F64.gt (F64.fabs (T.t_compute w.t)) (F64.fin 10) = false ∧
    (report T A cfg w).1 = true := by
  rw [report_verdict_eq, h]
  simp [F64.fabs, F64.gt, F64.lt]

/-! ## The round driver (`doit`) -/

/-- C8: `doit` terminates the process with exit status 111 if and only if at
least one of the five allocations failed; it then does so with the test context
and the output unchanged (nothing was pushed, no verdict produced); when all
five succeed it returns a verdict. -/
theorem doit_dies_iff_alloc_failed (T : Ttest) (A : Arith) (cfg : Config) (mode : Int)
    (w : World) :
    ((∃ w1, doit T A cfg mode w = Outcome.terminated 111 w1) ↔
      ((w.rounds 0).before_ticks_ok = false ∨ (w.rounds 0).after_ticks_ok = false ∨
        (w.rounds 0).exec_times_ok = false ∨ (w.rounds 0).classes_ok = false ∨
        (w.rounds 0).input_data_ok = false)) ∧
    (∀ s w1, doit T A cfg mode w = Outcome.terminated s w1 →
      s = 111 ∧ w1.t = w.t ∧ w1.stdout = w.stdout ∧
      (doit T A cfg mode w).val? = none) ∧
    (((w.rounds 0).before_ticks_ok = true ∧ (w.rounds 0).after_ticks_ok = true ∧
        (w.rounds 0).exec_times_ok = true ∧ (w.rounds 0).classes_ok = true ∧
        (w.rounds 0).input_data_ok = true) →
      ∃ v w1, doit T A cfg mode w = Outcome.ret v w1) ∧
    doit T A cfg mode w ≠ Outcome.fault := by
  cases hok : (w.rounds 0).all_ok with
  | true =>
    have hd := doit_of_all_ok T A cfg mode w hok
    unfold RoundEnv.all_ok at hok
    simp only [Bool.and_eq_true] at hok
    obtain ⟨⟨⟨⟨h1, h2⟩, h3⟩, h4⟩, h5⟩ := hok
    refine ⟨?_, ?_, ?_, ?_⟩
    · rw [hd]
      simp [h1, h2, h3, h4, h5]
    · intro s w1 h
      rw [hd] at h
      cases h
    · intro _
      exact ⟨_, _, hd⟩
    · rw [hd]
      intro h
      cases h
  | false =>
    have hd := doit_of_not_all_ok T A cfg mode w hok
    refine ⟨?_, ?_, ?_, ?_⟩
    · constructor
      · intro _
        unfold RoundEnv.all_ok at hok
        revert hok
        cases (w.rounds 0).before_ticks_ok <;> cases (w.rounds 0).after_ticks_ok <;>
          cases (w.rounds 0).exec_times_ok <;> cases (w.rounds 0).classes_ok <;>
          cases (w.rounds 0).input_data_ok <;> simp
      · intro _
        exact ⟨w, hd⟩
    · intro s w1 h
      rw [hd] at h
      cases h
      rw [hd]
      exact ⟨rfl, rfl, rfl, rfl⟩
    · intro h
      unfold RoundEnv.all_ok at hok
      simp [h.1, h.2.1, h.2.2.1, h.2.2.2.1, h.2.2.2.2] at hok
    · rw [hd]
      intro h
      cases h

theorem welch_gap (g : ℚ) : welch_compute (ctx_gap g) = F64.fin (g / 5) := by
  have h : F64.sqrt (F64.fin (18 / 2 + 32 / 2)) = F64.fin 5 := by
    rw [show ((18 : ℚ) / 2 + 32 / 2) = 25 by norm_num]
    exact sqrt_25
  simp [welch_compute, ctx_gap, F64.add, F64.sub, F64.neg, F64.div, F64.ofInt, h]

/-- Instance of C2 with the reference `ttest`: statistics 1000 and 20 fail, the
boundary statistic 10 and the statistic 0 pass. -/
theorem report_verdict_bands_witness :
    (report welchTtest exactArith cfg4 (world_of (ctx_gap 5000))).1 = false ∧
    (report welchTtest exactArith cfg4 (world_of (ctx_gap 100))).1 = false ∧
    (report welchTtest exactArith cfg4 (world_of (ctx_gap 50))).1 = true ∧
    (report welchTtest exactArith cfg4 (world_of (ctx_gap 0))).1 = true := by
  refine ⟨(report_verdict_bands welchTtest exactArith cfg4 (world_of (ctx_gap 5000))).1 ?_,
    (report_verdict_bands welchTtest exactArith cfg4 (world_of (ctx_gap 100))).2.1 ?_,
    (report_verdict_bands welchTtest exactArith cfg4 (world_of (ctx_gap 50))).2.2.2 ?_,
    (report_verdict_bands welchTtest exactArith cfg4 (world_of (ctx_gap 0))).2.2.1 ?_⟩
  · show F64.gt (F64.fabs (welch_compute (ctx_gap 5000))) (F64.fin 500) = true
    rw [welch_gap]
    simp only [F64.fabs, F64.gt, F64.lt, decide_eq_true_eq]
    norm_num
  · show F64.gt (F64.fabs (welch_compute (ctx_gap 100))) (F64.fin 10) = true ∧
      F64.le (F64.fabs (welch_compute (ctx_gap 100))) (F64.fin 500) = true
    rw [welch_gap]
    simp only [F64.fabs, F64.gt, F64.lt, F64.le, decide_eq_true_eq]
    norm_num
  · show F64.fabs (welch_compute (ctx_gap 50)) = F64.fin 10
    rw [welch_gap]
    simp only [F64.fabs]
    norm_num
  · show F64.le (F64.fabs (welch_compute (ctx_gap 0))) (F64.fin 10) = true
    rw [welch_gap]
    simp only [F64.fabs, F64.le, decide_eq_true_eq]
    norm_num

/-- Instance of C10 with the reference `ttest`: on a freshly initialised context
(no samples) the statistic is NaN and `report` returns true. -/
theorem report_nan_passes_witness :
    welch_compute (welford_init ctx_garbage) = F64.nan ∧
    (report welchTtest exactArith cfg4 (world_of (welford_init ctx_garbage))).1 = true :=
  ⟨by decide,
   (report_nan_passes welchTtest exactArith cfg4 (world_of (welford_init ctx_garbage))
      (by decide)).2.2⟩

/-- Instance of C8: a round whose `classes` allocation fails dies with status
111 in an unchanged state; a round whose allocations succeed returns. -/
theorem doit_dies_iff_alloc_failed_witness :
    doit welchTtest exactArith cfg4 0 world_failed = Outcome.terminated 111 world_failed ∧
    ∃ v w1, doit welchTtest exactArith cfg4 0 world_ab = Outcome.ret v w1 :=
  ⟨rfl,
   (doit_dies_iff_alloc_failed welchTtest exactArith cfg4 0 world_ab).2.2.1
      ⟨rfl, rfl, rfl, rfl, rfl⟩⟩

/-- C9: the value `report` prints as `s1` is computed from class 0: it is the
same expression as `s0`, `sqrt(m2[0] / (n[0] - 1))`. On `ctx_s1` (at least two
samples per class) it prints `s1 = 3`, while the standard deviation of class 1,
`sqrt(m2[1] / (n[1] - 1))`, is 4. -/
theorem report_s1_uses_class0 :
    (∀ (T : Ttest) (A : Arith) (cfg : Config) (t : t_ctx),
      (report_diag T A cfg t).s1 = A.sqrt (A.div t.m2_0 (A.ofInt ((t.n0 : Int) - 1)))) ∧
    (report_diag welchTtest exactArith cfg4 ctx_s1).s0 = F64.fin 3 ∧
    (report_diag welchTtest exactArith cfg4 ctx_s1).s1 = F64.fin 3 ∧
    exactArith.sqrt (exactArith.div ctx_s1.m2_1 (exactArith.ofInt ((ctx_s1.n1 : Int) - 1)))
      = F64.fin 4 ∧
    (report_diag welchTtest exactArith cfg4 ctx_s1).m21 = ctx_s1.m2_1 ∧
    (report_diag welchTtest exactArith cfg4 ctx_s1).mu1 = ctx_s1.mean1 := by
  have h9 : F64.sqrt (F64.fin (18 / 2)) = F64.fin 3 := by
    rw [show ((18 : ℚ) / 2) = 9 by norm_num]
    exact sqrt_9
  have h16 : F64.sqrt (F64.fin (32 / 2)) = F64.fin 4 := by
    rw [show ((32 : ℚ) / 2) = 16 by norm_num]
    exact sqrt_16
  refine ⟨fun _ _ _ _ => rfl, ?_, ?_, ?_, rfl, rfl⟩
  · simp [report_diag, exactArith, ctx_s1, F64.div, F64.ofInt, h9]
  · simp [report_diag, exactArith, ctx_s1, F64.div, F64.ofInt, h9]
  · simp [exactArith, ctx_s1, F64.div, F64.ofInt, h16]

/-! ## Campaigns -/

theorem is_insert_tail_const_eq_loop (T : Ttest) (A : Arith) (cfg : Config) (w : World)
    (h : cfg.wf) :
    is_insert_tail_const T A cfg w =
      campaign_loop T A cfg 0 (rounds_run cfg) false (campaign_start T 0 w) := by
  simp only [is_insert_tail_const, loop_bound_of_wf cfg h]
  rfl

theorem is_size_const_eq_loop (T : Ttest) (A : Arith) (cfg : Config) (w : World)
    (h : cfg.wf) :
    is_size_const T A cfg w =
      campaign_loop T A cfg 1 (rounds_run cfg) false (campaign_start T 1 w) := by
  simp only [is_size_const, loop_bound_of_wf cfg h]
  rfl

theorem rounds_run_pos (cfg : Config) : 0 < rounds_run cfg := Nat.succ_pos _

/-- A campaign loop started by `campaign_start`, all of whose rounds allocate
successfully. -/
theorem campaign_run (T : Ttest) (A : Arith) (cfg : Config) (mode : Int) (w : World)
    (hok : ∀ k, k < rounds_run cfg → (w.rounds k).all_ok = true) :
    ∃ v w1,
      campaign_loop T A cfg mode (rounds_run cfg) false (campaign_start T mode w)
        = Outcome.ret v w1 ∧
      w1.t = push_all T
        (campaign_samples cfg.number_measurements mode w.rounds (rounds_run cfg)) (T.t_init w.t) ∧
      w1.rounds = (fun k => w.rounds (k + rounds_run cfg)) ∧
      reports_emitted w1.stdout = reports_emitted w.stdout + rounds_run cfg ∧
      (round_verdicts T A cfg mode (rounds_run cfg) (campaign_start T mode w)).length
        = rounds_run cfg ∧
      (round_verdicts T A cfg mode (rounds_run cfg) (campaign_start T mode w)).getLast?
        = some v := by
  obtain ⟨v, w1, hrun, ht, hr, he, hl, hlast, _⟩ :=
    campaign_loop_run T A cfg mode (rounds_run cfg) false (campaign_start T mode w) hok
  refine ⟨v, w1, hrun, ht, hr, ?_, hl, ?_⟩
  · rw [he]
    show reports_emitted (w.stdout ++ [Event.testing mode]) + rounds_run cfg = _
    rw [reports_emitted_append]
    simp [reports_emitted]
  · rw [hlast, if_neg (Nat.pos_iff_ne_zero.mp (rounds_run_pos cfg))]

theorem ceil_div_eq (a b : Nat) (hb : 0 < b) :
    a / b + 1 = ceil_div a b + (if a % b = 0 then 1 else 0) := by
  unfold ceil_div
  have hdm := Nat.div_add_mod a b
  have hlt := Nat.mod_lt a hb
  have e0 : a / b * b = b * (a / b) := Nat.mul_comm _ _
  have e1 : (a / b + 1) * b = b * (a / b) + b := by ring
  have e2 : (a / b + 1 + 1) * b = b * (a / b) + b + b := by ring
  generalize b * (a / b) = p at hdm e0 e1 e2
  by_cases h0 : a % b = 0
  · rw [if_pos h0]
    have : (a + b - 1) / b = a / b := by
      apply Nat.div_eq_of_lt_le
      · rw [e0]
        omega
      · rw [e1]
        omega
    omega
  · rw [if_neg h0]
    have : (a + b - 1) / b = a / b + 1 := by
      apply Nat.div_eq_of_lt_le
      · rw [e1]
        omega
      · rw [e2]
        omega
    omega

/-- C3, counterexample: in the end-to-end scenario (`N = 1000`, `drop_size = 0`,
`enough_measurements = 100000`) the ceiling is 100, but the loop bound is 101 and
the campaign emits 101 round reports. -/
theorem campaign_scenario_runs_101_rounds :
    rounds_ceil cfg1000 = 100 ∧ loop_bound cfg1000 = some 101 ∧
    ((is_insert_tail_const welchTtest exactArith cfg1000 world1000).world?.map
      (fun w => reports_emitted w.stdout)) = some 101 ∧
    ¬ (((is_insert_tail_const welchTtest exactArith cfg1000 world1000).world?.map
      (fun w => reports_emitted w.stdout)) = some (rounds_ceil cfg1000)) := by
  have hwf : cfg1000.wf := by
    unfold Config.wf cfg1000
    norm_num
  have hrr : rounds_run cfg1000 = 101 := by decide
  have hc : rounds_ceil cfg1000 = 100 := by decide
  have hlb : loop_bound cfg1000 = some 101 := by rw [loop_bound_of_wf cfg1000 hwf, hrr]
  have hrun : ((is_insert_tail_const welchTtest exactArith cfg1000 world1000).world?.map
      (fun w => reports_emitted w.stdout)) = some 101 := by
    obtain ⟨v, w1, hrun, _, _, he, _, _⟩ :=
      campaign_run welchTtest exactArith cfg1000 0 world1000 (fun _ _ => rfl)
    rw [is_insert_tail_const_eq_loop _ _ _ _ hwf, hrun]
    simp only [Outcome.world?, Option.map_some', he, hrr]
    rfl
  refine ⟨hc, hlb, hrun, ?_⟩
  rw [hrun, hc]
  decide

/-- C3, amended: with `enough_measurements >= 0`, `drop_size >= 0` and
`N > 2 * drop_size`, a campaign whose rounds all allocate successfully executes
`doit` exactly `floor(enough_measurements / (N - 2 * drop_size)) + 1` times: it
returns, having emitted that many round reports and consumed that many round
environments. This is the ceiling when `N - 2 * drop_size` does not divide
`enough_measurements` and one more than the ceiling when it does. -/
theorem campaign_round_count (T : Ttest) (A : Arith) (cfg : Config) (w : World)
    (h : cfg.wf) (hok : ∀ k, k < rounds_run cfg → (w.rounds k).all_ok = true) :
    (∃ v w1, is_insert_tail_const T A cfg w = Outcome.ret v w1 ∧
      reports_emitted w1.stdout = reports_emitted w.stdout + rounds_run cfg ∧
      w1.rounds = (fun k => w.rounds (k + rounds_run cfg))) ∧
    (∃ v w1, is_size_const T A cfg w = Outcome.ret v w1 ∧
      reports_emitted w1.stdout = reports_emitted w.stdout + rounds_run cfg ∧
      w1.rounds = (fun k => w.rounds (k + rounds_run cfg))) ∧
    rounds_run cfg =
      cfg.enough_measurements.toNat / (cfg.number_measurements - 2 * cfg.drop_size.toNat) + 1 ∧
    rounds_run cfg = rounds_ceil cfg +
      (if cfg.enough_measurements.toNat % (cfg.number_measurements - 2 * cfg.drop_size.toNat) = 0
        then 1 else 0) := by
  refine ⟨?_, ?_, rfl, ?_⟩
  · obtain ⟨v, w1, hrun, _, hr, he, _, _⟩ := campaign_run T A cfg 0 w hok
    exact ⟨v, w1, by rw [is_insert_tail_const_eq_loop _ _ _ _ h, hrun], he, hr⟩
  · obtain ⟨v, w1, hrun, _, hr, he, _, _⟩ := campaign_run T A cfg 1 w hok
    exact ⟨v, w1, by rw [is_size_const_eq_loop _ _ _ _ h, hrun], he, hr⟩
  · unfold rounds_run rounds_ceil
    apply ceil_div_eq
    obtain ⟨h1, h2, h3, h4, h5, h6⟩ := h
    omega

/-- Instance of C3 (amended) on the end-to-end scenario: 101 rounds. -/
theorem campaign_round_count_witness :
    cfg1000.wf ∧
    ∃ v w1, is_insert_tail_const welchTtest exactArith cfg1000 world1000 = Outcome.ret v w1 ∧
      reports_emitted w1.stdout = reports_emitted world1000.stdout + 101 := by
  have hwf : cfg1000.wf := by
    unfold Config.wf cfg1000
    norm_num
  obtain ⟨v, w1, h1, h2, _⟩ :=
    (campaign_round_count welchTtest exactArith cfg1000 world1000 hwf (fun _ _ => rfl)).1
  exact ⟨hwf, v, w1, h1, h2⟩

/-- C4: with `enough_measurements >= 0` and `N > 2 * drop_size`, a campaign
(`is_insert_tail_const` with mode 0, `is_size_const` with mode 1) whose rounds
all allocate successfully returns the verdict of the last round it executed,
whatever the earlier rounds returned; at least one round runs, so the initial
value of `result` is not what is returned. -/
theorem campaign_returns_last_verdict (T : Ttest) (A : Arith) (cfg : Config) (w : World)
    (h : cfg.wf) (hok : ∀ k, k < rounds_run cfg → (w.rounds k).all_ok = true) :
    (∃ v w1, is_insert_tail_const T A cfg w = Outcome.ret v w1 ∧
      (round_verdicts T A cfg 0 (rounds_run cfg) (campaign_start T 0 w)).getLast? = some v ∧
      0 < (round_verdicts T A cfg 0 (rounds_run cfg) (campaign_start T 0 w)).length) ∧
    (∃ v w1, is_size_const T A cfg w = Outcome.ret v w1 ∧
      (round_verdicts T A cfg 1 (rounds_run cfg) (campaign_start T 1 w)).getLast? = some v ∧
      0 < (round_verdicts T A cfg 1 (rounds_run cfg) (campaign_start T 1 w)).length) := by
  constructor
  · obtain ⟨v, w1, hrun, _, _, _, hl, hlast⟩ := campaign_run T A cfg 0 w hok
    exact ⟨v, w1, by rw [is_insert_tail_const_eq_loop _ _ _ _ h, hrun], hlast,
      by rw [hl]; exact rounds_run_pos cfg⟩
  · obtain ⟨v, w1, hrun, _, _, _, hl, hlast⟩ := campaign_run T A cfg 1 w hok
    exact ⟨v, w1, by rw [is_size_const_eq_loop _ _ _ _ h, hrun], hlast,
      by rw [hl]; exact rounds_run_pos cfg⟩

/-- C5, amended: a campaign whose rounds all allocate successfully returns true
only if the last round it ran reported pass: if the last round's report returned
false, the campaign returns false. -/
theorem campaign_true_only_if_last_round_passed (T : Ttest) (A : Arith) (cfg : Config)
    (w : World) (h : cfg.wf) (hok : ∀ k, k < rounds_run cfg → (w.rounds k).all_ok = true) :
    ((is_insert_tail_const T A cfg w).val? = some true →
      (round_verdicts T A cfg 0 (rounds_run cfg) (campaign_start T 0 w)).getLast? = some true) ∧
    ((round_verdicts T A cfg 0 (rounds_run cfg) (campaign_start T 0 w)).getLast? = some false →
      (is_insert_tail_const T A cfg w).val? = some false) ∧
    ((is_size_const T A cfg w).val? = some true →
      (round_verdicts T A cfg 1 (rounds_run cfg) (campaign_start T 1 w)).getLast? = some true) ∧
    ((round_verdicts T A cfg 1 (rounds_run cfg) (campaign_start T 1 w)).getLast? = some false →
      (is_size_const T A cfg w).val? = some false) := by
  obtain ⟨v0, w0, hrun0, _, _, _, _, hlast0⟩ := campaign_run T A cfg 0 w hok
  obtain ⟨v1, w1, hrun1, _, _, _, _, hlast1⟩ := campaign_run T A cfg 1 w hok
  rw [is_insert_tail_const_eq_loop _ _ _ _ h, is_size_const_eq_loop _ _ _ _ h, hrun0, hrun1,
    hlast0, hlast1]
  simp only [Outcome.val?]
  exact ⟨fun e => e, fun e => e, fun e => e, fun e => e⟩

/-- C6: `report` does not modify the test context; a round leaves the context it
entered with, extended by `t_push` of the round's strictly positive samples in
index order; and a campaign whose rounds all allocate successfully ends with the
context `t_init` followed by `t_push` of every strictly positive sample of every
round, in round order then index order: the context is initialised once and
never reset. -/
theorem campaign_context_accumulates (T : Ttest) (A : Arith) (cfg : Config) (w : World)
    (h : cfg.wf) (hok : ∀ k, k < rounds_run cfg → (w.rounds k).all_ok = true) :
    (∀ w0, (report T A cfg w0).2.t = w0.t) ∧
    (∀ mode w0, (w0.rounds 0).all_ok = true →
      ∃ v w1, doit T A cfg mode w0 = Outcome.ret v w1 ∧
        w1.t = push_all T (round_samples cfg.number_measurements mode (w0.rounds 0)) w0.t) ∧
    (∃ v w1, is_insert_tail_const T A cfg w = Outcome.ret v w1 ∧
      w1.t = push_all T
        (campaign_samples cfg.number_measurements 0 w.rounds (rounds_run cfg)) (T.t_init w.t)) ∧
    (∃ v w1, is_size_const T A cfg w = Outcome.ret v w1 ∧
      w1.t = push_all T
        (campaign_samples cfg.number_measurements 1 w.rounds (rounds_run cfg)) (T.t_init w.t)) := by
  refine ⟨?_, ?_, ?_, ?_⟩
  · intro w0
    rw [report_world]
  · intro mode w0 h0
    exact ⟨_, _, doit_of_all_ok T A cfg mode w0 h0, rfl⟩
  · obtain ⟨v, w1, hrun, ht, _⟩ := campaign_run T A cfg 0 w hok
    exact ⟨v, w1, by rw [is_insert_tail_const_eq_loop _ _ _ _ h, hrun], ht⟩
  · obtain ⟨v, w1, hrun, ht, _⟩ := campaign_run T A cfg 1 w hok
    exact ⟨v, w1, by rw [is_size_const_eq_loop _ _ _ _ h, hrun], ht⟩

/-! ## The two-round campaign `cfg4`, `world_ab` -/

theorem cfg4_wf : cfg4.wf := by
  unfold Config.wf cfg4
  norm_num

theorem cfg4_rounds : rounds_run cfg4 = 2 := by decide

theorem world_ab_ok : ∀ k, k < rounds_run cfg4 → (world_ab.rounds k).all_ok = true := by
  intro k _
  by_cases hk : k = 0
  · simp [world_ab, hk, round_a, round_of, RoundEnv.all_ok]
  · simp [world_ab, hk, round_b, round_of, RoundEnv.all_ok]

theorem campaign_samples_ab :
    campaign_samples 4 0 world_ab.rounds 2
      = [(1, 0), (7, 0), (100, 1), (108, 1), (4, 0), (10, 0), (28, 0), (100, 0)] := by
  decide

theorem doit_eval (T : Ttest) (A : Arith) (cfg : Config) (mode : Int) (w : World) (t1 : t_ctx)
    (x : F64) (hok : (w.rounds 0).all_ok = true)
    (ht : push_all T (round_samples cfg.number_measurements mode (w.rounds 0)) w.t = t1)
    (hx : T.t_compute t1 = x) :
    doit T A cfg mode w =
      Outcome.ret (!F64.gt (F64.fabs x) (F64.fin 500) && !F64.gt (F64.fabs x) (F64.fin 10))
        { t := t1
          stdout := w.stdout ++ [Event.report (report_diag T A cfg t1)]
          rounds := fun k => w.rounds (k + 1) } := by
  rw [doit_of_all_ok T A cfg mode w hok, report_verdict_eq, ht, hx]

theorem verdict_20 :
    (!F64.gt (F64.fabs (F64.fin 20)) (F64.fin 500) &&
      !F64.gt (F64.fabs (F64.fin 20)) (F64.fin 10)) = false := by
  simp only [F64.fabs, F64.gt, F64.lt]
  norm_num

theorem verdict_79_16 :
    (!F64.gt (F64.fabs (F64.fin (79 / 16))) (F64.fin 500) &&
      !F64.gt (F64.fabs (F64.fin (79 / 16))) (F64.fin 10)) = true := by
  have habs : |(79 : ℚ) / 16| = 79 / 16 := abs_of_nonneg (by norm_num)
  simp only [F64.fabs, F64.gt, F64.lt, habs]
  norm_num

theorem round_verdicts_ab :
    round_verdicts welchTtest exactArith cfg4 0 2 (campaign_start welchTtest 0 world_ab)
      = [false, true] := by
  have hd0 := doit_eval welchTtest exactArith cfg4 0 (campaign_start welchTtest 0 world_ab)
    ⟨F64.fin 4, F64.fin 104, F64.fin 18, F64.fin 32, 2, 2⟩ (F64.fin 20) rfl
    (by
      show push_all welchTtest (round_samples 4 0 round_a) (welford_init ctx_garbage) = _
      rw [round_a_samples, push_round_a])
    welch_after_a
  rw [verdict_20] at hd0
  have hd1 := doit_eval welchTtest exactArith cfg4 0
    { t := ⟨F64.fin 4, F64.fin 104, F64.fin 18, F64.fin 32, 2, 2⟩
      stdout := (campaign_start welchTtest 0 world_ab).stdout ++
        [Event.report (report_diag welchTtest exactArith cfg4
          ⟨F64.fin 4, F64.fin 104, F64.fin 18, F64.fin 32, 2, 2⟩)]
      rounds := fun k => (campaign_start welchTtest 0 world_ab).rounds (k + 1) }
    ⟨F64.fin 25, F64.fin 104, F64.fin 7200, F64.fin 32, 6, 2⟩ (F64.fin (79 / 16)) rfl
    (by
      show push_all welchTtest (round_samples 4 0 round_b) _ = _
      rw [round_b_samples, push_round_b])
    welch_after_b
  rw [verdict_79_16] at hd1
  simp only [round_verdicts, hd0, hd1]

theorem campaign_ab_val :
    (is_insert_tail_const welchTtest exactArith cfg4 world_ab).val? = some true := by
  obtain ⟨v, w1, hrun, _, _, _, _, hlast⟩ :=
    campaign_run welchTtest exactArith cfg4 0 world_ab world_ab_ok
  rw [is_insert_tail_const_eq_loop _ _ _ _ cfg4_wf, hrun]
  rw [cfg4_rounds, round_verdicts_ab] at hlast
  simp only [Outcome.val?]
  simpa using hlast.symm

/-- C5, counterexample: in the two-round campaign on `world_ab` the first round
reports fail (statistic 20) and the second reports pass (statistic 79/16), and
the campaign returns true although a round it ran reported fail. -/
theorem campaign_true_after_failed_round :
    loop_bound cfg4 = some 2 ∧
    round_verdicts welchTtest exactArith cfg4 0 2 (campaign_start welchTtest 0 world_ab)
      = [false, true] ∧
    (is_insert_tail_const welchTtest exactArith cfg4 world_ab).val? = some true :=
  ⟨by rw [loop_bound_of_wf cfg4 cfg4_wf, cfg4_rounds], round_verdicts_ab, campaign_ab_val⟩

/-- Instance of C4 on `world_ab`: the campaign returns true, the verdict of its
second and last round, although `result` was false after the first round. -/
theorem campaign_returns_last_verdict_witness :
    cfg4.wf ∧
    ∃ w1, is_insert_tail_const welchTtest exactArith cfg4 world_ab = Outcome.ret true w1 := by
  obtain ⟨v, w1, hrun, hlast, _⟩ :=
    (campaign_returns_last_verdict welchTtest exactArith cfg4 world_ab cfg4_wf world_ab_ok).1
  rw [cfg4_rounds, round_verdicts_ab] at hlast
  have hv : v = true := by simpa using hlast.symm
  exact ⟨cfg4_wf, w1, by rw [hrun, hv]⟩

/-- Instance of C5 (amended) on `world_ab`: the campaign returns true and its
last round passed. -/
theorem campaign_true_only_if_last_round_passed_witness :
    cfg4.wf ∧
    (is_insert_tail_const welchTtest exactArith cfg4 world_ab).val? = some true ∧
    (round_verdicts welchTtest exactArith cfg4 0 (rounds_run cfg4)
      (campaign_start welchTtest 0 world_ab)).getLast? = some true :=
  ⟨cfg4_wf, campaign_ab_val,
   (campaign_true_only_if_last_round_passed welchTtest exactArith cfg4 world_ab cfg4_wf
      world_ab_ok).1 campaign_ab_val⟩

/-- Instance of C6 on `world_ab`: the campaign ends with the context obtained
from the initialised context by pushing the eight measured samples of its two
rounds: class 0 holds six samples with mean 25, class 1 two with mean 104. -/
theorem campaign_context_accumulates_witness :
    ∃ v w1, is_insert_tail_const welchTtest exactArith cfg4 world_ab = Outcome.ret v w1 ∧
      w1.t = ⟨F64.fin 25, F64.fin 104, F64.fin 7200, F64.fin 32, 6, 2⟩ := by
  obtain ⟨v, w1, hrun, ht⟩ :=
    (campaign_context_accumulates welchTtest exactArith cfg4 world_ab cfg4_wf world_ab_ok).2.2.1
  refine ⟨v, w1, hrun, ?_⟩
  rw [ht, cfg4_rounds]
  show push_all welchTtest (campaign_samples 4 0 world_ab.rounds 2) (welford_init ctx_garbage) = _
  rw [campaign_samples_ab]
  have happ : [((1 : Int), 0), (7, 0), (100, 1), (108, 1), (4, 0), (10, 0), (28, 0), (100, 0)]
      = [((1 : Int), 0), (7, 0), (100, 1), (108, 1)] ++ [(4, 0), (10, 0), (28, 0), (100, 0)] := rfl
  rw [happ, push_all_append, push_round_a, push_round_b]

end Dudect
